import Mathlib

/-!
Shallow embedding of the EchoVerse backend story-narration pipeline
(`analyze_story_content` and the `/story-narration-merged` endpoint in
`app.py`), together with theorems checking the specification's claims.

Text is modelled as `List Char`.  The Python string operations used by
the code (`strip`, `lower`, `title`, `split('\n')`, `in`, `startswith`,
`endswith`) and the three regular expressions of `analyze_story_content`
are embedded as executable functions.  The regexes involved are
deterministic (each greedy class is disjoint from what follows it), so
maximal-munch scanning implements Python's backtracking semantics
exactly.  Character classes follow the ASCII fragment of Python's
`\w`/`\s` (the inputs of interest are ASCII).
-/

namespace EchoVerse

/-- ASCII fragment of Python's whitespace set used by `str.strip` and `\s`. -/
def isPySpace (c : Char) : Bool :=
  c = ' ' || c = '\t' || c = '\n' || c = '\r' || c = '\x0b' || c = '\x0c'

/-- ASCII fragment of Python's `\w` class: alphanumerics and underscore. -/
def isWordChar (c : Char) : Bool :=
  c.isAlphanum || c = '_'

/-- Python `str.strip()`: drop whitespace from both ends. -/
def pyStrip (l : List Char) : List Char :=
  ((l.dropWhile isPySpace).reverse.dropWhile isPySpace).reverse

/-- Python `str.lower()` (ASCII). -/
def pyLower (l : List Char) : List Char :=
  l.map Char.toLower

/-- Helper for `pyTitle`: the Bool records whether the previous character
was a cased (alphabetic) character. -/
def pyTitleGo : Bool → List Char → List Char
  | _, [] => []
  | prevCased, c :: rest =>
    if c.isAlpha then
      (if prevCased then c.toLower else c.toUpper) :: pyTitleGo true rest
    else
      c :: pyTitleGo false rest

/-- Python `str.title()` (ASCII): uppercase each letter that follows a
non-letter, lowercase the others. -/
def pyTitle (l : List Char) : List Char :=
  pyTitleGo false l

/-- Python `text.split('\n')` on character lists; always returns at least
one (possibly empty) piece. -/
def splitNL : List Char → List (List Char)
  | [] => [[]]
  | c :: rest =>
    if c = '\n' then [] :: splitNL rest
    else
      match splitNL rest with
      | l :: ls => (c :: l) :: ls
      | [] => [[c]]

/-- Python's substring test `needle in hay`. -/
def containsSub (needle hay : List Char) : Bool :=
  match hay with
  | [] => needle.isPrefixOf ([] : List Char)
  | c :: t => needle.isPrefixOf (c :: t) || containsSub needle t

/-- Python `s.endswith(('.', '!', '?'))`. -/
def endsWithPunct (l : List Char) : Bool :=
  match l.getLast? with
  | some c => c = '.' || c = '!' || c = '?'
  | none => false

/-- The text clean-up step of `analyze_story_content`: if the text does
not end in `.`, `!` or `?`, append a period. -/
def normalizeText (l : List Char) : List Char :=
  if endsWithPunct l then l else l ++ ['.']

/-- `re.match(r'(\w+)\s*\(([^)]+)\):\s*["\']?([^"\']*)["\']?', line)`,
the structured character-cue pattern, anchored at the start of the line.
Returns the three capture groups (name, emotion hint, dialogue text). -/
def matchCharacterCue (l : List Char) : Option (List Char × List Char × List Char) :=
  let name := l.takeWhile isWordChar
  if name = [] then none
  else
    match (l.drop name.length).dropWhile isPySpace with
    | '(' :: r2 =>
      let emo := r2.takeWhile (fun c => c ≠ ')')
      if emo = [] then none
      else
        match r2.drop emo.length with
        | ')' :: ':' :: r3 =>
          let r4 := r3.dropWhile isPySpace
          let r5 :=
            match r4 with
            | c :: t => if c = '"' || c = '\'' then t else r4
            | [] => []
          let dlg := r5.takeWhile (fun c => !(c = '"' || c = '\''))
          some (name, emo, dlg)
        | _ => none
    | _ => none

/-- `re.search(r'"([^"]*)"', line)`: leftmost double-quoted substring;
returns the capture group. -/
def searchDoubleQuote : List Char → Option (List Char)
  | [] => none
  | c :: rest =>
    if c = '"' then
      let g := rest.takeWhile (fun x => x ≠ '"')
      match rest.drop g.length with
      | '"' :: _ => some g
      | _ => searchDoubleQuote rest
    else searchDoubleQuote rest

/-- One alternation branch of the speaker regex of shape `(\w+)\s+LIT`:
a word, at least one space, then the literal. -/
def branchWordLit (lit : List Char) (l : List Char) : Option (List Char) :=
  let w := l.takeWhile isWordChar
  if w = [] then none
  else
    let r1 := l.drop w.length
    let sp := r1.takeWhile isPySpace
    if sp = [] then none
    else if lit.isPrefixOf (r1.drop sp.length) then some w else none

/-- One alternation branch of the speaker regex of shape `LIT\s+(\w+)`:
the literal, at least one space, then a word. -/
def branchLitWord (lit : List Char) (l : List Char) : Option (List Char) :=
  if lit.isPrefixOf l then
    let r1 := l.drop lit.length
    let sp := r1.takeWhile isPySpace
    if sp = [] then none
    else
      let w := (r1.drop sp.length).takeWhile isWordChar
      if w = [] then none else some w
  else none

/-- All six branches of
`(\w+)\s+said|said\s+(\w+)|(\w+)\s+asked|asked\s+(\w+)|(\w+)\s+replied|replied\s+(\w+)`
tried in order at one position; the result is the single non-empty
capture group (`next(filter(None, m.groups()))`). -/
def tryBranchesAt (l : List Char) : Option (List Char) :=
  (branchWordLit "said".data l).orElse fun _ =>
  (branchLitWord "said".data l).orElse fun _ =>
  (branchWordLit "asked".data l).orElse fun _ =>
  (branchLitWord "asked".data l).orElse fun _ =>
  (branchWordLit "replied".data l).orElse fun _ =>
  branchLitWord "replied".data l

/-- `re.search` with the speaker pattern: scan positions left to right,
first position (and there first branch) that matches wins. -/
def findSpeaker : List Char → Option (List Char)
  | [] => none
  | c :: rest =>
    match tryBranchesAt (c :: rest) with
    | some w => some w
    | none => findSpeaker rest

/-- Python `dict` lookup (`d.get(k)` / `k in d`) on an insertion-ordered
association list. -/
def lookupStr : List (String × String) → String → Option String
  | [], _ => none
  | (k, v) :: t, name => if k = name then some v else lookupStr t name

/-- The `emotion_mapping` dict of `analyze_story_content`, in insertion
order (the keyword scan iterates in this order). -/
def emotionMapping : List (String × String) :=
  [("cheerful", "cheerful"), ("happy", "cheerful"), ("excited", "cheerful"),
   ("playful", "cheerful"), ("joy", "cheerful"), ("laugh", "cheerful"),
   ("smile", "cheerful"),
   ("sad", "sad"), ("cry", "sad"), ("weep", "sad"), ("sorrow", "sad"),
   ("tear", "sad"),
   ("angry", "angry"), ("mad", "angry"), ("furious", "angry"),
   ("rage", "angry"), ("shout", "angry"),
   ("calm", "calm"), ("peaceful", "calm"), ("quiet", "calm"),
   ("whisper", "calm"), ("serene", "calm"),
   ("nervous", "suspenseful"), ("scared", "suspenseful"),
   ("afraid", "suspenseful"), ("worry", "suspenseful"),
   ("anxious", "suspenseful"), ("suspenseful", "suspenseful"),
   ("confident", "confident"), ("proud", "confident"),
   ("strong", "confident"), ("brave", "confident"), ("bold", "confident"),
   ("inspiring", "confident")]

/-- First `emotion_mapping` key (in insertion order) occurring as a
substring of the lowercased text fixes the tone. -/
def scanKeywords : List (String × String) → List Char → Option String
  | [], _ => none
  | (k, v) :: t, lower => if containsSub k.data lower then some v else scanKeywords t lower

/-- The emotion-lexicon keyword scan of `analyze_story_content`. -/
def findKeywordTone (lower : List Char) : Option String :=
  scanKeywords emotionMapping lower

/-- `any(word in text for word in ws)`. -/
def anyInfix (ws : List String) (lower : List Char) : Bool :=
  ws.any fun w => containsSub w.data lower

/-- Words of the first textual-cue override rule (tone `angry`). -/
def exclaimWords : List String := ["!", "exclaimed", "shouted", "yelled"]

/-- Words of the second textual-cue override rule (tone `calm`). -/
def whisperWords : List String := ["whispered", "murmured", "softly"]

/-- Words of the third textual-cue override rule (tone `suspenseful`). -/
def mysteryWords : List String := ["wondered", "mysterious", "strange"]

/-- The action/emotional-indicator override chain, evaluated only while
the tone is still neutral, in source order. -/
def detectOverride (lower : List Char) : String :=
  if anyInfix exclaimWords lower then "angry"
  else if anyInfix whisperWords lower then "calm"
  else if anyInfix mysteryWords lower then "suspenseful"
  else "neutral"

/-- Tone refinement applied to every classified line: the keyword scan
runs only if the tone is still neutral, and the override chain only if
it is still neutral after that. -/
def refineTone (tone : String) (txt : List Char) : String :=
  let tone1 := if tone = "neutral" then (findKeywordTone (pyLower txt)).getD "neutral" else tone
  if tone1 = "neutral" then detectOverride (pyLower txt) else tone1

/-- One story segment as produced by `analyze_story_content`. -/
structure Segment where
  text : String
  voice : String
  tone : String
  character : String
  emotion : Option String
  is_dialogue : Bool
deriving Repr, DecidableEq

/-- Build the segment dict appended at the end of the loop body:
the stored text is normalized, and `emotion` echoes a non-neutral tone. -/
def mkSegment (txt : List Char) (voice tone character : String) (isDlg : Bool) : Segment :=
  { text := String.mk (normalizeText txt)
    voice := voice
    tone := tone
    character := character
    emotion := if tone ≠ "neutral" then some tone else none
    is_dialogue := isDlg }

/-- The `voices` pool of `analyze_story_content`. -/
def voices : List String := ["david", "zira", "heera", "mark", "ravi"]

/-- `narrator_voice = voices[0]`. -/
def narratorVoice : String := voices.getD 0 ""

/-- The mutable locals of the analysis loop: the `character_voices` dict
(insertion-ordered) and `current_voice_index`. -/
structure AState where
  characterVoices : List (String × String)
  currentVoiceIndex : Nat
deriving Repr, DecidableEq

/-- The state at the top of every call: empty dict, index 1. -/
def initState : AState := ⟨[], 1⟩

/-- Voice assignment: an already-bound character keeps its voice; a new
one is bound to `voices[current_voice_index % len(voices)]` and the
index is incremented. -/
def assignVoice (st : AState) (name : String) : String × AState :=
  match lookupStr st.characterVoices name with
  | some v => (v, st)
  | none =>
    let v := voices.getD (st.currentVoiceIndex % voices.length) ""
    (v, ⟨st.characterVoices ++ [(name, v)], st.currentVoiceIndex + 1⟩)

/-- `len([c for c in character_voices.keys() if c.startswith('Character')])`. -/
def countCharacterKeys (cv : List (String × String)) : Nat :=
  (cv.filter fun p => "Character".data.isPrefixOf p.1.data).length

/-- The body of the per-line loop of `analyze_story_content`, for one
non-blank stripped line: returns the emitted segment and the updated
state. -/
def classifyLine (st : AState) (line : List Char) : Segment × AState :=
  match matchCharacterCue line with
  | some (nm, emo, dlg) =>
    let characterName := String.mk (pyTitle nm)
    let emotionHint := String.mk (pyStrip (pyLower emo))
    let dialogueText := pyStrip dlg
    let tone0 := (lookupStr emotionMapping emotionHint).getD "neutral"
    (mkSegment dialogueText (assignVoice st characterName).1
       (refineTone tone0 dialogueText) characterName true,
     (assignVoice st characterName).2)
  | none =>
    match searchDoubleQuote line with
    | some _ =>
      match findSpeaker (pyLower line) with
      | some sp =>
        let speaker := String.mk (pyTitle sp)
        (mkSegment line (assignVoice st speaker).1
           (refineTone "neutral" line) speaker true,
         (assignVoice st speaker).2)
      | none =>
        let cname := "Character " ++ Nat.repr (countCharacterKeys st.characterVoices + 1)
        (mkSegment line (assignVoice st cname).1
           (refineTone "neutral" line) cname true,
         (assignVoice st cname).2)
    | none =>
      (mkSegment line narratorVoice (refineTone "neutral" line) "Narrator" false, st)

/-- The analysis loop over the split lines: blank lines (after strip)
are skipped, other lines are classified, threading the state. -/
def analyzeLines (st : AState) : List (List Char) → List Segment
  | [] => []
  | l :: ls =>
    let line := pyStrip l
    if line = [] then analyzeLines st ls
    else
      let r := classifyLine st line
      r.1 :: analyzeLines r.2 ls

/-- The state left by the analysis loop (used to reason about voice
bindings; it threads exactly as in `analyzeLines`). -/
def finalState (st : AState) : List (List Char) → AState
  | [] => st
  | l :: ls =>
    let line := pyStrip l
    if line = [] then finalState st ls
    else finalState (classifyLine st line).2 ls

/-- `analyze_story_content(text)`: split into lines and run the loop
from the freshly initialized local state. -/
def analyze_story_content (text : String) : List Segment :=
  analyzeLines initState (splitNL text.data)

/-!
The `/story-narration-merged` endpoint.  Synthesis is abstracted by a
predicate `synthOk : Nat → Bool` telling, per segment index, whether any
of the TTS backends produced audio data for that segment (a Hugging Face
exception followed by a Watson exception, or no data at all, both just
skip the segment).  `pydubOk` is false when `from pydub import
AudioSegment` raises `ImportError`; `mergeOk` is false when anything in
the merge block raises a generic exception.  Per-segment temporary
audio files are identified by their segment index; the result carries
the temp files still present when the handler returns.
-/

/-- Outcome of the endpoint, as visible to the caller.  `ok clips
segmentsCount` is the success JSON: `clips` are the segment indices
whose audio was synthesized, in the order in which they appear in the
merged asset, and `segmentsCount` is the reported `segments_count`. -/
inductive MergedResponse where
  | errNoJson
  | errTextRequired
  | errUserRequired
  | errNoSegments
  | errNoClips
  | errMergeUnavailable
  | errMergeFailed
  | ok (clips : List Nat) (segmentsCount : Nat)
deriving Repr, DecidableEq

/-- The `for i, segment in enumerate(segments)` synthesis loop starting
at index `i` with `n` segments left: collects (as temp-file/audio-file
entries) the indices for which synthesis produced audio. -/
def synthesisLoop (synthOk : Nat → Bool) : Nat → Nat → List Nat
  | _, 0 => []
  | i, Nat.succ k =>
    if synthOk i then i :: synthesisLoop synthOk (i + 1) k
    else synthesisLoop synthOk (i + 1) k

/-- The merge block: empty clip list fails with the "no audio" error
(before the pydub import); a pydub `ImportError` returns without the
clean-up loop, leaving the temp files; a generic merge exception and the
success path both run the clean-up loop. -/
def mergePhase (tempFiles : List Nat) (segCount : Nat) (pydubOk mergeOk : Bool) :
    MergedResponse × List Nat :=
  if tempFiles = [] then (.errNoClips, [])
  else if pydubOk = false then (.errMergeUnavailable, tempFiles)
  else if mergeOk = false then (.errMergeFailed, [])
  else (.ok tempFiles segCount, [])

/-- The endpoint handler `story_narration_merged`: request validation,
analysis, per-segment synthesis, then the merge block.  The second
component is the list of per-segment temp files still on disk when the
handler returns. -/
def storyNarrationMerged (hasJson : Bool) (text : String) (hasUser : Bool)
    (synthOk : Nat → Bool) (pydubOk mergeOk : Bool) : MergedResponse × List Nat :=
  if hasJson = false then (.errNoJson, [])
  else if pyStrip text.data = [] then (.errTextRequired, [])
  else if hasUser = false then (.errUserRequired, [])
  else if analyze_story_content (String.mk (pyStrip text.data)) = [] then (.errNoSegments, [])
  else
    mergePhase
      (synthesisLoop synthOk 0 (analyze_story_content (String.mk (pyStrip text.data))).length)
      (analyze_story_content (String.mk (pyStrip text.data))).length
      pydubOk mergeOk

/-- A sequence of analysis calls in one process: each call runs
`analyze_story_content` afresh (its dict, counter and narrator default
are locals re-initialized per call). -/
def runCalls (texts : List String) : List (List Segment) :=
  texts.map analyze_story_content

/-!  Helper lemmas about the embedded operations. -/

/-- Appending an entry at the end of the dict does not change existing
lookups. -/
lemma lookupStr_append_some (cv : List (String × String)) (p : String × String)
    (k v : String) (h : lookupStr cv k = some v) :
    lookupStr (cv ++ [p]) k = some v := by
  induction cv with
  | nil => simp [lookupStr] at h
  | cons q t ih =>
    obtain ⟨qk, qv⟩ := q
    by_cases hq : qk = k
    · subst hq
      simp only [lookupStr, if_pos rfl] at h
      simp only [List.cons_append, lookupStr, if_pos rfl]
      exact h
    · simp only [lookupStr, if_neg hq] at h
      simp only [List.cons_append, lookupStr, if_neg hq]
      exact ih h

/-- Looking up a freshly appended key finds it when it was absent. -/
lemma lookupStr_append_self (cv : List (String × String)) (k v : String)
    (h : lookupStr cv k = none) : lookupStr (cv ++ [(k, v)]) k = some v := by
  induction cv with
  | nil => simp [lookupStr]
  | cons q t ih =>
    obtain ⟨qk, qv⟩ := q
    by_cases hq : qk = k
    · subst hq
      simp [lookupStr] at h
    · simp only [lookupStr, if_neg hq] at h
      simp only [List.cons_append, lookupStr, if_neg hq]
      exact ih h

/-- A successful lookup comes from an entry of the dict. -/
lemma lookupStr_mem (cv : List (String × String)) (k v : String)
    (h : lookupStr cv k = some v) : (k, v) ∈ cv := by
  induction cv with
  | nil => simp [lookupStr] at h
  | cons q t ih =>
    obtain ⟨qk, qv⟩ := q
    by_cases hq : qk = k
    · simp only [lookupStr, if_pos hq] at h
      obtain rfl : qv = v := by injection h
      subst hq
      exact List.mem_cons_self _ _
    · simp only [lookupStr, if_neg hq] at h
      exact List.mem_cons_of_mem _ (ih h)

/-- After `assignVoice`, the assigned character is bound to the returned
voice. -/
lemma assignVoice_lookup_self (st : AState) (n : String) :
    lookupStr (assignVoice st n).2.characterVoices n = some (assignVoice st n).1 := by
  unfold assignVoice
  cases h : lookupStr st.characterVoices n with
  | some v => simpa using h
  | none => simpa using lookupStr_append_self _ _ _ h

/-- `assignVoice` never disturbs an existing binding. -/
lemma assignVoice_mono (st : AState) (n k v0 : String)
    (h : lookupStr st.characterVoices k = some v0) :
    lookupStr (assignVoice st n).2.characterVoices k = some v0 := by
  unfold assignVoice
  cases hn : lookupStr st.characterVoices n with
  | some v => simpa using h
  | none => simpa using lookupStr_append_some _ _ _ _ h

/-- An in-range `getD` is a member of the list. -/
lemma getD_mem_of_lt {α : Type} (l : List α) (n : Nat) (d : α) (h : n < l.length) :
    l.getD n d ∈ l := by
  induction l generalizing n with
  | nil => simp at h
  | cons a t ih =>
    cases n with
    | zero => simp [List.getD]
    | succ m =>
      have hm : m < t.length := by simpa using h
      simp only [List.getD, List.get?_cons_succ]
      exact List.mem_cons_of_mem _ (ih m hm)

/-- The voice drawn from the pool at any counter value is a pool member. -/
lemma voices_getD_mod_mem (i : Nat) : voices.getD (i % voices.length) "" ∈ voices :=
  getD_mem_of_lt _ _ _ (Nat.mod_lt _ (by decide))

/-- Invariant: every voice recorded in the character dict is a pool
member. -/
def voicesInv (st : AState) : Prop :=
  ∀ p ∈ st.characterVoices, p.2 ∈ voices

lemma voicesInv_init : voicesInv initState := by
  intro p hp
  simp [initState] at hp

/-- `assignVoice` returns a pool voice. -/
lemma assignVoice_fst_mem (st : AState) (n : String) (hinv : voicesInv st) :
    (assignVoice st n).1 ∈ voices := by
  unfold assignVoice
  cases h : lookupStr st.characterVoices n with
  | some v => simpa using hinv _ (lookupStr_mem _ _ _ h)
  | none => simpa using voices_getD_mod_mem st.currentVoiceIndex

/-- `assignVoice` preserves the pool invariant. -/
lemma assignVoice_inv (st : AState) (n : String) (hinv : voicesInv st) :
    voicesInv (assignVoice st n).2 := by
  unfold assignVoice
  cases h : lookupStr st.characterVoices n with
  | some v => simpa using hinv
  | none =>
    intro p hp
    have hp' : p ∈ st.characterVoices ++
        [(n, voices.getD (st.currentVoiceIndex % voices.length) "")] := by
      simpa using hp
    rcases List.mem_append.mp hp' with h1 | h1
    · exact hinv _ h1
    · have hpe : p = (n, voices.getD (st.currentVoiceIndex % voices.length) "") := by
        simpa using h1
      rw [hpe]
      exact voices_getD_mod_mem st.currentVoiceIndex

lemma narratorVoice_mem : narratorVoice ∈ voices := by decide

/-- `classifyLine` never disturbs an existing binding. -/
lemma classifyLine_mono (st : AState) (l : List Char) (k v : String)
    (h : lookupStr st.characterVoices k = some v) :
    lookupStr (classifyLine st l).2.characterVoices k = some v := by
  unfold classifyLine
  cases hc : matchCharacterCue l with
  | some x =>
    obtain ⟨nm, emo, dlg⟩ := x
    simpa using assignVoice_mono _ _ _ _ h
  | none =>
    cases hq : searchDoubleQuote l with
    | some g =>
      cases hs : findSpeaker (pyLower l) with
      | some sp => simpa using assignVoice_mono _ _ _ _ h
      | none => simpa using assignVoice_mono _ _ _ _ h
    | none => simpa using h

/-- Every classified line is either a narration segment (state and voice
untouched) or a dialogue segment whose character is bound to its voice
in the updated dict. -/
lemma classifyLine_cases (st : AState) (l : List Char) :
    ((classifyLine st l).1.is_dialogue = false ∧ (classifyLine st l).2 = st ∧
       (classifyLine st l).1.character = "Narrator" ∧
       (classifyLine st l).1.voice = narratorVoice)
    ∨ ((classifyLine st l).1.is_dialogue = true ∧
       lookupStr (classifyLine st l).2.characterVoices (classifyLine st l).1.character
         = some (classifyLine st l).1.voice) := by
  unfold classifyLine
  cases hc : matchCharacterCue l with
  | some x =>
    obtain ⟨nm, emo, dlg⟩ := x
    right
    constructor
    · simp [mkSegment]
    · simpa [mkSegment] using assignVoice_lookup_self st (String.mk (pyTitle nm))
  | none =>
    cases hq : searchDoubleQuote l with
    | some g =>
      cases hs : findSpeaker (pyLower l) with
      | some sp =>
        right
        constructor
        · simp [mkSegment]
        · simpa [mkSegment] using assignVoice_lookup_self st (String.mk (pyTitle sp))
      | none =>
        right
        constructor
        · simp [mkSegment]
        · simpa [mkSegment] using assignVoice_lookup_self st
            ("Character " ++ Nat.repr (countCharacterKeys st.characterVoices + 1))
    | none =>
      left
      simp [mkSegment]

/-- `classifyLine` preserves the pool invariant. -/
lemma classifyLine_inv (st : AState) (l : List Char) (hinv : voicesInv st) :
    voicesInv (classifyLine st l).2 := by
  unfold classifyLine
  cases hc : matchCharacterCue l with
  | some x =>
    obtain ⟨nm, emo, dlg⟩ := x
    simpa using assignVoice_inv _ _ hinv
  | none =>
    cases hq : searchDoubleQuote l with
    | some g =>
      cases hs : findSpeaker (pyLower l) with
      | some sp => simpa using assignVoice_inv _ _ hinv
      | none => simpa using assignVoice_inv _ _ hinv
    | none => simpa using hinv

/-- The voice of every classified segment is a pool member. -/
lemma classifyLine_voice_mem (st : AState) (l : List Char) (hinv : voicesInv st) :
    (classifyLine st l).1.voice ∈ voices := by
  unfold classifyLine
  cases hc : matchCharacterCue l with
  | some x =>
    obtain ⟨nm, emo, dlg⟩ := x
    simpa [mkSegment] using assignVoice_fst_mem _ _ hinv
  | none =>
    cases hq : searchDoubleQuote l with
    | some g =>
      cases hs : findSpeaker (pyLower l) with
      | some sp => simpa [mkSegment] using assignVoice_fst_mem _ _ hinv
      | none => simpa [mkSegment] using assignVoice_fst_mem _ _ hinv
    | none => simpa [mkSegment] using narratorVoice_mem

/-- A line with no structured cue and no quoted substring classifies as
a narration segment and leaves the state unchanged. -/
lemma classifyLine_narration (st : AState) (l : List Char)
    (hc : matchCharacterCue l = none) (hq : searchDoubleQuote l = none) :
    classifyLine st l =
      (mkSegment l narratorVoice (refineTone "neutral" l) "Narrator" false, st) := by
  simp [classifyLine, hc, hq]

/-- Appending one element makes it the last. -/
lemma getLast?_append_one {α : Type} (l : List α) (a : α) :
    (l ++ [a]).getLast? = some a := by
  induction l with
  | nil => rfl
  | cons b t ih =>
    cases t with
    | nil => rfl
    | cons c t' => exact ih

/-- The normalized text always ends in terminal punctuation. -/
lemma endsWithPunct_normalize (l : List Char) :
    endsWithPunct (normalizeText l) = true := by
  cases h : endsWithPunct l with
  | true =>
    have he : normalizeText l = l := by simp [normalizeText, h]
    rw [he, h]
  | false =>
    have he : normalizeText l = l ++ ['.'] := by simp [normalizeText, h]
    rw [he]
    simp [endsWithPunct, getLast?_append_one]

/-- Every classified segment's stored text ends in terminal punctuation. -/
lemma classifyLine_text_punct (st : AState) (l : List Char) :
    endsWithPunct (classifyLine st l).1.text.data = true := by
  unfold classifyLine
  cases hc : matchCharacterCue l with
  | some x =>
    obtain ⟨nm, emo, dlg⟩ := x
    simpa [mkSegment] using endsWithPunct_normalize (pyStrip dlg)
  | none =>
    cases hq : searchDoubleQuote l with
    | some g =>
      cases hs : findSpeaker (pyLower l) with
      | some sp => simpa [mkSegment] using endsWithPunct_normalize l
      | none => simpa [mkSegment] using endsWithPunct_normalize l
    | none => simpa [mkSegment] using endsWithPunct_normalize l

/-- The analysis loop never disturbs an existing binding. -/
lemma finalState_mono (ls : List (List Char)) :
    ∀ (st : AState) (k v : String), lookupStr st.characterVoices k = some v →
      lookupStr (finalState st ls).characterVoices k = some v := by
  induction ls with
  | nil => intro st k v h; simpa [finalState] using h
  | cons l ls ih =>
    intro st k v h
    by_cases hb : pyStrip l = []
    · simp only [finalState, hb, if_pos rfl]
      exact ih st k v h
    · simp only [finalState, hb, if_neg hb]
      exact ih _ k v (classifyLine_mono _ _ _ _ h)

/-- Every dialogue segment emitted by the loop has its character bound
to its voice in the final dict. -/
lemma analyzeLines_dialogue_lookup (ls : List (List Char)) :
    ∀ (st : AState), ∀ s ∈ analyzeLines st ls, s.is_dialogue = true →
      lookupStr (finalState st ls).characterVoices s.character = some s.voice := by
  induction ls with
  | nil => intro st s hs; simp [analyzeLines] at hs
  | cons l ls ih =>
    intro st s hs hd
    by_cases hb : pyStrip l = []
    · simp only [analyzeLines, hb, if_pos rfl] at hs
      simp only [finalState, hb, if_pos rfl]
      exact ih st s hs hd
    · simp [analyzeLines, hb] at hs
      simp [finalState, hb]
      rcases hs with rfl | hs
      · rcases classifyLine_cases st (pyStrip l) with ⟨hnd, _, _, _⟩ | ⟨_, hlk⟩
        · exact absurd hd (by simp [hnd])
        · exact finalState_mono _ _ _ _ hlk
      · exact ih _ s hs hd

/-- Every segment emitted by the loop carries a pool voice. -/
lemma analyzeLines_voice_mem (ls : List (List Char)) :
    ∀ (st : AState), voicesInv st → ∀ s ∈ analyzeLines st ls, s.voice ∈ voices := by
  induction ls with
  | nil => intro st _ s hs; simp [analyzeLines] at hs
  | cons l ls ih =>
    intro st hinv s hs
    by_cases hb : pyStrip l = []
    · simp only [analyzeLines, hb, if_pos rfl] at hs
      exact ih st hinv s hs
    · simp [analyzeLines, hb] at hs
      rcases hs with rfl | hs
      · exact classifyLine_voice_mem _ _ hinv
      · exact ih _ (classifyLine_inv _ _ hinv) s hs

/-- Every segment emitted by the loop has terminally punctuated text. -/
lemma analyzeLines_punct (ls : List (List Char)) :
    ∀ (st : AState), ∀ s ∈ analyzeLines st ls, endsWithPunct s.text.data = true := by
  induction ls with
  | nil => intro st s hs; simp [analyzeLines] at hs
  | cons l ls ih =>
    intro st s hs
    by_cases hb : pyStrip l = []
    · simp only [analyzeLines, hb, if_pos rfl] at hs
      exact ih st s hs
    · simp [analyzeLines, hb] at hs
      rcases hs with rfl | hs
      · exact classifyLine_text_punct _ _
      · exact ih _ s hs

/-- On lines with no cue and no quote, the loop emits only narrator
segments. -/
lemma analyzeLines_narrator (ls : List (List Char)) :
    ∀ (st : AState),
      (∀ l ∈ ls, matchCharacterCue (pyStrip l) = none ∧
        searchDoubleQuote (pyStrip l) = none) →
      ∀ s ∈ analyzeLines st ls,
        s.character = "Narrator" ∧ s.is_dialogue = false ∧ s.voice = narratorVoice := by
  induction ls with
  | nil => intro st _ s hs; simp [analyzeLines] at hs
  | cons l ls ih =>
    intro st hall s hs
    have hl := hall l (List.mem_cons_self _ _)
    have hrest : ∀ l' ∈ ls, matchCharacterCue (pyStrip l') = none ∧
        searchDoubleQuote (pyStrip l') = none :=
      fun l' hl' => hall l' (List.mem_cons_of_mem _ hl')
    by_cases hb : pyStrip l = []
    · simp only [analyzeLines, hb, if_pos rfl] at hs
      exact ih st hrest s hs
    · simp [analyzeLines, hb] at hs
      rcases hs with rfl | hs
      · rw [classifyLine_narration st (pyStrip l) hl.1 hl.2]
        simp [mkSegment]
      · rw [classifyLine_narration st (pyStrip l) hl.1 hl.2] at hs
        exact ih _ hrest s hs

/-- If every line strips to blank, the loop emits nothing. -/
lemma analyzeLines_all_blank (ls : List (List Char)) (st : AState)
    (h : ∀ l ∈ ls, pyStrip l = []) : analyzeLines st ls = [] := by
  induction ls with
  | nil => simp [analyzeLines]
  | cons l ls ih =>
    have hb := h l (List.mem_cons_self _ _)
    simp only [analyzeLines, hb, if_pos rfl]
    exact ih fun l' hl' => h l' (List.mem_cons_of_mem _ hl')

/-- An all-whitespace character list strips to blank. -/
lemma pyStrip_all_space (l : List Char) (h : l.all isPySpace = true) :
    pyStrip l = [] := by
  have hd : l.dropWhile isPySpace = [] := by
    induction l with
    | nil => rfl
    | cons c t ih =>
      simp only [List.all_cons, Bool.and_eq_true] at h
      simp [List.dropWhile, h.1, ih h.2]
  simp [pyStrip, hd]

/-- Splitting an all-whitespace text yields only all-whitespace lines
(note `'\n'` itself is whitespace). -/
lemma splitNL_all_space (cs : List Char) (h : cs.all isPySpace = true) :
    ∀ l ∈ splitNL cs, l.all isPySpace = true := by
  induction cs with
  | nil =>
    intro l hl
    simp [splitNL] at hl
    simp [hl]
  | cons c rest ih =>
    simp only [List.all_cons, Bool.and_eq_true] at h
    intro l hl
    by_cases hc : c = '\n'
    · subst hc
      simp [splitNL] at hl
      rcases hl with rfl | hl
      · rfl
      · exact ih h.2 l hl
    · cases hsp : splitNL rest with
      | nil =>
        simp [splitNL, hc, hsp] at hl
        subst hl
        simp [h.1]
      | cons l0 ls0 =>
        simp [splitNL, hc, hsp] at hl
        rcases hl with rfl | hl
        · have hl0 : l0.all isPySpace = true := ih h.2 l0 (by rw [hsp]; exact List.mem_cons_self _ _)
          simp [h.1, hl0]
        · exact ih h.2 l (by rw [hsp]; exact List.mem_cons_of_mem _ hl)

/-- A tone found by the keyword scan is a value of the lexicon. -/
lemma scanKeywords_mem (m : List (String × String)) (l : List Char) (v : String)
    (h : scanKeywords m l = some v) : ∃ k, (k, v) ∈ m := by
  induction m with
  | nil => simp [scanKeywords] at h
  | cons q t ih =>
    obtain ⟨qk, qv⟩ := q
    by_cases hc : containsSub qk.data l = true
    · simp [scanKeywords, hc] at h
      exact ⟨qk, by simp [h]⟩
    · simp [scanKeywords, hc] at h
      obtain ⟨k, hk⟩ := ih h
      exact ⟨k, List.mem_cons_of_mem _ hk⟩

/-- No lexicon value is the neutral tone. -/
lemma findKeywordTone_ne_neutral (l : List Char) (t : String)
    (h : findKeywordTone l = some t) : t ≠ "neutral" := by
  obtain ⟨k, hk⟩ := scanKeywords_mem _ _ _ h
  have hall : ∀ p ∈ emotionMapping, p.2 ≠ "neutral" := by decide
  exact hall (k, t) hk

/-- The synthesis loop collects exactly the successful indices, in
index order. -/
lemma synthesisLoop_eq_filter' (synth : Nat → Bool) (n : Nat) :
    ∀ i, synthesisLoop synth i n = (List.range' i n).filter synth := by
  induction n with
  | zero => intro i; rfl
  | succ k ih =>
    intro i
    show (if synth i then i :: synthesisLoop synth (i + 1) k else synthesisLoop synth (i + 1) k)
        = (i :: List.range' (i + 1) k).filter synth
    rw [List.filter_cons]
    cases hs : synth i <;> simp [hs, ih]

lemma synthesisLoop_eq_filter (synth : Nat → Bool) (n : Nat) :
    synthesisLoop synth 0 n = (List.range n).filter synth := by
  rw [List.range_eq_range']
  exact synthesisLoop_eq_filter' synth n 0

/-- If synthesis fails for every segment index, no clip is collected. -/
lemma synthesisLoop_eq_nil (synth : Nat → Bool) (n : Nat)
    (h : ∀ i, i < n → synth i = false) : synthesisLoop synth 0 n = [] := by
  rw [synthesisLoop_eq_filter]
  apply List.filter_eq_nil_iff.mpr
  intro a ha
  simp [h a (List.mem_range.mp ha)]

/-- One successful segment suffices for a non-empty clip list. -/
lemma synthesisLoop_ne_nil (synth : Nat → Bool) (n j : Nat)
    (hj : j < n) (hs : synth j = true) : synthesisLoop synth 0 n ≠ [] := by
  rw [synthesisLoop_eq_filter]
  intro hnil
  have hmem : j ∈ List.filter synth (List.range n) :=
    List.mem_filter.mpr ⟨List.mem_range.mpr hj, hs⟩
  rw [hnil] at hmem
  simp at hmem

/-- The merge block deletes the temp files on every exit except the
merge-unavailable (`ImportError`) one. -/
lemma mergePhase_snd_eq_nil (tf : List Nat) (n : Nat) (p m : Bool)
    (h : (mergePhase tf n p m).1 ≠ MergedResponse.errMergeUnavailable) :
    (mergePhase tf n p m).2 = [] := by
  by_cases htf : tf = []
  · simp [mergePhase, htf]
  · by_cases hp : p = false
    · exact absurd (show (mergePhase tf n p m).1 = MergedResponse.errMergeUnavailable by
        simp [mergePhase, htf, hp]) h
    · by_cases hm : m = false
      · simp [mergePhase, htf, hp, hm]
      · simp [mergePhase, htf, hp, hm]

/-- Decomposition of the merge block on the success path. -/
lemma mergePhase_ok (tf : List Nat) (n : Nat) (p m : Bool) (clips : List Nat)
    (cnt : Nat) (temps : List Nat)
    (h : mergePhase tf n p m = (MergedResponse.ok clips cnt, temps)) :
    clips = tf ∧ cnt = n := by
  by_cases htf : tf = []
  · simp [mergePhase, htf] at h
  · by_cases hp : p = false
    · simp [mergePhase, htf, hp] at h
    · by_cases hm : m = false
      · simp [mergePhase, htf, hp, hm] at h
      · simp [mergePhase, htf, hp, hm] at h
        exact ⟨h.1.1.symm, h.1.2.symm⟩

/-!  The claims. -/

/-- C1, counterexample: a document yielding 3 segments where synthesis
fails for segment index 1 produces a merged asset with clips for
segments 0 and 2 only, but the endpoint reports `segments_count = 3`,
the total number of analyzed segments, not the number (2) of successful
clips. -/
theorem c1_counterexample :
    storyNarrationMerged true "One\nTwo\nThree" true (fun i => !(i == 1)) true true
      = (MergedResponse.ok [0, 2] 3, []) ∧ (3 : Nat) ≠ ([0, 2] : List Nat).length := by
  decide

/-- C1, amended: whenever the merged-narration endpoint succeeds, the
merged asset contains exactly the clips of the successfully synthesized
segments in original order, and the reported segment count equals the
total number of analyzed segments (not the number of successful clips). -/
theorem c1_merged_reports_total_segments (hJ : Bool) (text : String) (hU : Bool)
    (synth : Nat → Bool) (p m : Bool) (clips : List Nat) (cnt : Nat) (temps : List Nat)
    (h : storyNarrationMerged hJ text hU synth p m = (MergedResponse.ok clips cnt, temps)) :
    cnt = (analyze_story_content (String.mk (pyStrip text.data))).length ∧
    clips = (List.range cnt).filter synth := by
  by_cases h1 : hJ = false
  · simp [storyNarrationMerged, h1] at h
  · by_cases h2 : pyStrip text.data = []
    · simp [storyNarrationMerged, h1, h2] at h
    · by_cases h3 : hU = false
      · simp [storyNarrationMerged, h1, h2, h3] at h
      · by_cases h4 : analyze_story_content (String.mk (pyStrip text.data)) = []
        · simp [storyNarrationMerged, h1, h2, h3, h4] at h
        · have hred : storyNarrationMerged hJ text hU synth p m =
              mergePhase
                (synthesisLoop synth 0
                  (analyze_story_content (String.mk (pyStrip text.data))).length)
                (analyze_story_content (String.mk (pyStrip text.data))).length p m := by
            simp [storyNarrationMerged, h1, h2, h3, h4]
          rw [hred] at h
          obtain ⟨hc, hn⟩ := mergePhase_ok _ _ _ _ _ _ _ h
          subst hn
          exact ⟨rfl, by rw [hc, synthesisLoop_eq_filter]⟩

/-- C1, witness for the amended theorem at the three-segment input. -/
theorem c1_witness :
    (3 : Nat) = (analyze_story_content (String.mk (pyStrip "One\nTwo\nThree".data))).length ∧
    ([0, 2] : List Nat) = (List.range 3).filter (fun i => !(i == 1)) :=
  c1_merged_reports_total_segments true "One\nTwo\nThree" true (fun i => !(i == 1))
    true true [0, 2] 3 [] (by decide)

/-- C2, counterexample: on the single line `Maya (excited): "We found
it!"` the emitted text is not `We found it!.` (the raw dialogue already
ends in `!`, so no period is appended). -/
theorem c2_counterexample :
    (analyze_story_content "Maya (excited): \"We found it!\"").map Segment.text
      ≠ ["We found it!."] := by
  decide

/-- C2, amended: the single line `Maya (excited): "We found it!"` yields
exactly one segment with character `Maya`, voice `pool[1]` (= `zira`,
the first non-narrator assignment), tone `cheerful`, `is_dialogue` true
and text `We found it!` (unchanged, since it already ends in `!`). -/
theorem c2_single_line_segment :
    analyze_story_content "Maya (excited): \"We found it!\"" =
      [{ text := "We found it!", voice := "zira", tone := "cheerful",
         character := "Maya", emotion := some "cheerful", is_dialogue := true }] ∧
    voices.getD 1 "" = "zira" := by
  decide

/-- C3, counterexample: a request that reaches the merge phase and hits
the pydub `ImportError` exit returns with its per-segment temp file
still present — that exit path runs no clean-up. -/
theorem c3_counterexample :
    storyNarrationMerged true "Hello" true (fun _ => true) false true
      = (MergedResponse.errMergeUnavailable, [0]) ∧ ([0] : List Nat) ≠ [] := by
  decide

/-- C3, amended: on every exit of the merged-narration endpoint other
than the merge-unavailable (pydub `ImportError`) one, no per-segment
temporary audio file remains when the call returns. -/
theorem c3_cleanup_except_import_error (hJ : Bool) (text : String) (hU : Bool)
    (synth : Nat → Bool) (p m : Bool)
    (h : (storyNarrationMerged hJ text hU synth p m).1 ≠ MergedResponse.errMergeUnavailable) :
    (storyNarrationMerged hJ text hU synth p m).2 = [] := by
  by_cases h1 : hJ = false
  · simp [storyNarrationMerged, h1]
  · by_cases h2 : pyStrip text.data = []
    · simp [storyNarrationMerged, h1, h2]
    · by_cases h3 : hU = false
      · simp [storyNarrationMerged, h1, h2, h3]
      · by_cases h4 : analyze_story_content (String.mk (pyStrip text.data)) = []
        · simp [storyNarrationMerged, h1, h2, h3, h4]
        · have hred : storyNarrationMerged hJ text hU synth p m =
              mergePhase
                (synthesisLoop synth 0
                  (analyze_story_content (String.mk (pyStrip text.data))).length)
                (analyze_story_content (String.mk (pyStrip text.data))).length p m := by
            simp [storyNarrationMerged, h1, h2, h3, h4]
          rw [hred] at h ⊢
          exact mergePhase_snd_eq_nil _ _ _ _ h

/-- C3, witness: on the successful-merge path the temp files are gone. -/
theorem c3_witness :
    (storyNarrationMerged true "Hello" true (fun _ => true) true true).2 = [] :=
  c3_cleanup_except_import_error true "Hello" true (fun _ => true) true true (by decide)

/-- C4, counterexample: the character label `Narrator` can occur on two
segments with different voices — a plain narration line uses `pool[0]`
directly, while a structured cue named `Narrator` is bound through the
character table to `pool[1]`. -/
theorem c4_counterexample :
    (analyze_story_content "Hello there\nNarrator (calm): Hi").map
        (fun s => (s.character, s.voice))
      = [("Narrator", "david"), ("Narrator", "zira")] ∧
    ("david" : String) ≠ "zira" := by
  decide

/-- C4, amended: within one analysis call, the binding is stable and
pool-confined for dialogue segments (those whose voice is drawn through
the character table): two dialogue segments with the same character
label always carry the same voice; every segment's voice is one of the
5 pool members; an unbound character is bound to
`voicePool[nextVoiceIndex mod |voicePool|]` with the counter then
incremented, and an already-bound one keeps its voice. -/
theorem c4_dialogue_voice_binding :
    (∀ (text : String), ∀ s1 ∈ analyze_story_content text,
        ∀ s2 ∈ analyze_story_content text,
        s1.is_dialogue = true → s2.is_dialogue = true →
        s1.character = s2.character → s1.voice = s2.voice)
    ∧ (∀ (text : String), ∀ s ∈ analyze_story_content text, s.voice ∈ voices)
    ∧ (∀ (st : AState) (name : String), lookupStr st.characterVoices name = none →
        assignVoice st name =
          (voices.getD (st.currentVoiceIndex % voices.length) "",
           ⟨st.characterVoices ++
              [(name, voices.getD (st.currentVoiceIndex % voices.length) "")],
            st.currentVoiceIndex + 1⟩))
    ∧ (∀ (st : AState) (name v : String), lookupStr st.characterVoices name = some v →
        assignVoice st name = (v, st)) := by
  refine ⟨?_, ?_, ?_, ?_⟩
  · intro text s1 h1 s2 h2 hd1 hd2 hc
    have hb1 := analyzeLines_dialogue_lookup (splitNL text.data) initState s1 h1 hd1
    have hb2 := analyzeLines_dialogue_lookup (splitNL text.data) initState s2 h2 hd2
    rw [hc] at hb1
    exact Option.some.inj (hb1.symm.trans hb2)
  · intro text s hs
    exact analyzeLines_voice_mem (splitNL text.data) initState voicesInv_init s hs
  · intro st name h
    simp [assignVoice, h]
  · intro st name v h
    simp [assignVoice, h]

/-- C4, witness: the same cue name on two lines gets one voice, a pool
member. -/
theorem c4_witness :
    ((analyze_story_content "Tom (happy): A\nTom (sad): B").getD 0
        (mkSegment [] "" "" "" false)).voice
      = ((analyze_story_content "Tom (happy): A\nTom (sad): B").getD 1
        (mkSegment [] "" "" "" false)).voice ∧
    ((analyze_story_content "Tom (happy): A\nTom (sad): B").getD 0
        (mkSegment [] "" "" "" false)).voice ∈ voices :=
  ⟨c4_dialogue_voice_binding.1 "Tom (happy): A\nTom (sad): B"
      ((analyze_story_content "Tom (happy): A\nTom (sad): B").getD 0
        (mkSegment [] "" "" "" false)) (by decide)
      ((analyze_story_content "Tom (happy): A\nTom (sad): B").getD 1
        (mkSegment [] "" "" "" false)) (by decide)
      (by decide) (by decide) (by decide),
   c4_dialogue_voice_binding.2.1 "Tom (happy): A\nTom (sad): B"
      ((analyze_story_content "Tom (happy): A\nTom (sad): B").getD 0
        (mkSegment [] "" "" "" false)) (by decide)⟩

/-- C5: tone refinement is first-match-wins — a lexicon keyword match
fixes the tone and the override rules are never consulted; the override
rules (exclamation, whisper, mystery) apply in that order, each only
when no earlier rule matched. -/
theorem c5_first_match_wins (txt : List Char) (t : String) :
    (findKeywordTone (pyLower txt) = some t → refineTone "neutral" txt = t)
    ∧ (findKeywordTone (pyLower txt) = none →
        anyInfix exclaimWords (pyLower txt) = true →
        refineTone "neutral" txt = "angry")
    ∧ (findKeywordTone (pyLower txt) = none →
        anyInfix exclaimWords (pyLower txt) = false →
        anyInfix whisperWords (pyLower txt) = true →
        refineTone "neutral" txt = "calm")
    ∧ (findKeywordTone (pyLower txt) = none →
        anyInfix exclaimWords (pyLower txt) = false →
        anyInfix whisperWords (pyLower txt) = false →
        anyInfix mysteryWords (pyLower txt) = true →
        refineTone "neutral" txt = "suspenseful") := by
  refine ⟨?_, ?_, ?_, ?_⟩
  · intro h
    have hne := findKeywordTone_ne_neutral _ _ h
    simp [refineTone, h, hne]
  · intro h h1
    simp [refineTone, h, detectOverride, h1]
  · intro h h1 h2
    simp [refineTone, h, detectOverride, h1, h2]
  · intro h h1 h2 h3
    simp [refineTone, h, detectOverride, h1, h2, h3]

/-- C5, witness: a lexicon keyword (`laugh`) beats the `!` override; the
`!` override fires when no keyword matches. -/
theorem c5_witness :
    refineTone "neutral" "they laughed happily!".data = "cheerful" ∧
    refineTone "neutral" "he ran fast!".data = "angry" :=
  ⟨(c5_first_match_wins "they laughed happily!".data "cheerful").1 (by decide),
   (c5_first_match_wins "he ran fast!".data "x").2.1 (by decide) (by decide)⟩

/-- C6: a synthesis failure for one segment never aborts the assembly —
the remaining segments are still attempted and their clips kept (in
order) — and if no segment at all yields audio the endpoint fails with
the "no audio generated" error rather than returning an asset. -/
theorem c6_skip_failed_segments (text : String) (synth : Nat → Bool)
    (h2 : pyStrip text.data ≠ [])
    (h4 : analyze_story_content (String.mk (pyStrip text.data)) ≠ []) :
    (∀ p m : Bool,
      (∀ i, i < (analyze_story_content (String.mk (pyStrip text.data))).length →
        synth i = false) →
      (storyNarrationMerged true text true synth p m).1 = MergedResponse.errNoClips)
    ∧ (∀ j, j < (analyze_story_content (String.mk (pyStrip text.data))).length →
        synth j = true →
        (storyNarrationMerged true text true synth true true).1 =
          MergedResponse.ok
            ((List.range
                (analyze_story_content (String.mk (pyStrip text.data))).length).filter synth)
            (analyze_story_content (String.mk (pyStrip text.data))).length) := by
  have hred : ∀ p m : Bool, storyNarrationMerged true text true synth p m =
      mergePhase
        (synthesisLoop synth 0
          (analyze_story_content (String.mk (pyStrip text.data))).length)
        (analyze_story_content (String.mk (pyStrip text.data))).length p m := by
    intro p m
    simp [storyNarrationMerged, h2, h4]
  constructor
  · intro p m hall
    rw [hred p m, synthesisLoop_eq_nil synth _ hall]
    simp [mergePhase]
  · intro j hj hs
    have hne := synthesisLoop_ne_nil synth _ j hj hs
    have hm : mergePhase
        (synthesisLoop synth 0
          (analyze_story_content (String.mk (pyStrip text.data))).length)
        (analyze_story_content (String.mk (pyStrip text.data))).length true true =
        (MergedResponse.ok
          (synthesisLoop synth 0
            (analyze_story_content (String.mk (pyStrip text.data))).length)
          (analyze_story_content (String.mk (pyStrip text.data))).length, []) := by
      unfold mergePhase
      rw [if_neg hne]
      simp
    rw [hred true true, hm, synthesisLoop_eq_filter]

/-- C6, witness: with every segment failing the endpoint reports the
no-audio error; with segment 0 failing and segment 1 succeeding it
still returns a merged asset holding exactly clip 1. -/
theorem c6_witness :
    (storyNarrationMerged true "Hello\nWorld" true (fun _ => false) true true).1
      = MergedResponse.errNoClips ∧
    (storyNarrationMerged true "Hello\nWorld" true (fun i => i == 1) true true).1
      = MergedResponse.ok [1] 2 := by
  constructor
  · exact (c6_skip_failed_segments "Hello\nWorld" (fun _ => false) (by decide)
      (by decide)).1 true true (fun i _ => rfl)
  · have h := (c6_skip_failed_segments "Hello\nWorld" (fun i => i == 1) (by decide)
      (by decide)).2 1 (by decide) rfl
    rw [h]
    decide

/-- C7: text normalization — a raw spoken text not ending in `.`, `!`
or `?` gets exactly one `.` appended and nothing else altered, one that
does is unchanged, and consequently every emitted segment's text ends
in terminal punctuation. -/
theorem c7_text_normalization :
    (∀ raw : List Char, endsWithPunct raw = false → normalizeText raw = raw ++ ['.'])
    ∧ (∀ raw : List Char, endsWithPunct raw = true → normalizeText raw = raw)
    ∧ (∀ (text : String), ∀ s ∈ analyze_story_content text,
        endsWithPunct s.text.data = true) := by
  refine ⟨?_, ?_, ?_⟩
  · intro raw h
    simp [normalizeText, h]
  · intro raw h
    simp [normalizeText, h]
  · intro text s hs
    exact analyzeLines_punct (splitNL text.data) initState s hs

/-- C7, witness at concrete texts. -/
theorem c7_witness :
    normalizeText "abc".data = "abc".data ++ ['.'] ∧
    normalizeText "abc!".data = "abc!".data ∧
    endsWithPunct ((analyze_story_content "abc").getD 0
      (mkSegment [] "" "" "" false)).text.data = true :=
  ⟨c7_text_normalization.1 "abc".data (by decide),
   c7_text_normalization.2.1 "abc!".data (by decide),
   c7_text_normalization.2.2 "abc"
     ((analyze_story_content "abc").getD 0 (mkSegment [] "" "" "" false)) (by decide)⟩

/-- C8, counterexample: on all-whitespace input the endpoint returns
the "Text is required" error (the empty-after-strip check fires before
analysis), not the "No story segments found" error the claim names. -/
theorem c8_counterexample :
    (storyNarrationMerged true " \n " true (fun _ => true) true true).1
      = MergedResponse.errTextRequired ∧
    MergedResponse.errTextRequired ≠ MergedResponse.errNoSegments := by
  decide

/-- C8, amended: for all-whitespace input (equivalently, every line
blank after trimming) analysis returns the empty segment list, and the
endpoint rejects the request with the "Text is required" error before
analysis or synthesis is attempted — never a silent empty result. -/
theorem c8_blank_input_rejected (text : String) (h : text.data.all isPySpace = true) :
    analyze_story_content text = [] ∧
    ∀ (hU : Bool) (synth : Nat → Bool) (p m : Bool),
      (storyNarrationMerged true text hU synth p m).1 = MergedResponse.errTextRequired := by
  constructor
  · exact analyzeLines_all_blank _ _
      (fun l hl => pyStrip_all_space l (splitNL_all_space _ h l hl))
  · intro hU synth p m
    have h2 : pyStrip text.data = [] := pyStrip_all_space _ h
    simp [storyNarrationMerged, h2]

/-- C8, witness at a concrete all-whitespace input. -/
theorem c8_witness :
    analyze_story_content " \n\t" = [] ∧
    (storyNarrationMerged true " \n\t" true (fun _ => true) true true).1
      = MergedResponse.errTextRequired := by
  have h := c8_blank_input_rejected " \n\t" (by decide)
  exact ⟨h.1, h.2 true (fun _ => true) true true⟩

/-- C9: a document whose lines (after trimming) contain no structured
cue and no double-quoted substring yields only narrator segments:
character `Narrator`, `is_dialogue` false, voice `pool[0]`. -/
theorem c9_narration_only (text : String)
    (hall : ∀ l ∈ splitNL text.data, matchCharacterCue (pyStrip l) = none ∧
      searchDoubleQuote (pyStrip l) = none) :
    ∀ s ∈ analyze_story_content text,
      s.character = "Narrator" ∧ s.is_dialogue = false ∧ s.voice = voices.getD 0 "" := by
  intro s hs
  exact analyzeLines_narrator (splitNL text.data) initState hall s hs

/-- C9, witness at a two-line narration document. -/
theorem c9_witness :
    ((analyze_story_content "The sun rose.\nBirds sang").getD 0
        (mkSegment [] "" "" "" false)).character = "Narrator" ∧
    ((analyze_story_content "The sun rose.\nBirds sang").getD 1
        (mkSegment [] "" "" "" false)).voice = voices.getD 0 "" :=
  ⟨(c9_narration_only "The sun rose.\nBirds sang" (by decide)
      ((analyze_story_content "The sun rose.\nBirds sang").getD 0
        (mkSegment [] "" "" "" false)) (by decide)).1,
   (c9_narration_only "The sun rose.\nBirds sang" (by decide)
      ((analyze_story_content "The sun rose.\nBirds sang").getD 1
        (mkSegment [] "" "" "" false)) (by decide)).2.2⟩

/-- C10: analysis is a pure, deterministic function of its text — equal
inputs give equal segment lists, and in any sequence of calls the
result of a call is `analyze_story_content` of its own text,
independent of whatever calls came before. -/
theorem c10_analysis_pure :
    (∀ t1 t2 : String, t1 = t2 → analyze_story_content t1 = analyze_story_content t2)
    ∧ (∀ (prev1 prev2 : List String) (t : String),
        (runCalls (prev1 ++ [t])).getLast? = some (analyze_story_content t) ∧
        (runCalls (prev1 ++ [t])).getLast? = (runCalls (prev2 ++ [t])).getLast?) := by
  constructor
  · intro t1 t2 h
    rw [h]
  · intro p1 p2 t
    have h1 : (runCalls (p1 ++ [t])).getLast? = some (analyze_story_content t) := by
      simp [runCalls, getLast?_append_one]
    have h2 : (runCalls (p2 ++ [t])).getLast? = some (analyze_story_content t) := by
      simp [runCalls, getLast?_append_one]
    exact ⟨h1, h1.trans h2.symm⟩

/-- C10, witness: the same text after different call histories gives the
same result. -/
theorem c10_witness :
    analyze_story_content "Hi" = analyze_story_content "Hi" ∧
    (runCalls (["a", "b"] ++ ["Hi"])).getLast? = (runCalls ([] ++ ["Hi"])).getLast? :=
  ⟨c10_analysis_pure.1 "Hi" "Hi" rfl, (c10_analysis_pure.2 ["a", "b"] [] "Hi").2⟩

end EchoVerse
